import Mathlib

/-!
Verification of the orchestration core of a small cloud-deployment tool
(`deploy_script.py` for apply, `teardown.py` for destroy).  The provider
calls are modelled as pure state-passing functions over explicit remote
state; impure inputs (the generated run suffix, the remote identifiers a
provider would assign) are parameters.  Traces of issued calls are
returned where an ordering or call-count property is at stake.
-/

namespace Deploy

/-- Fixed table name from the configuration block of `deploy_script.py`. -/
def TABLE_NAME : String := "Inventory"

def LOADER_FUNC_NAME : String := "LoadInventoryFunction"

def API_FUNC_NAME : String := "GetInventoryApiFunction"

def NOTIFY_FUNC_NAME : String := "NotifyLowStockFunction"

def ROLE_NAME : String := "LabRole"

/-! ### S3 buckets (`bucket_exists` / `create_bucket` / `ensure_bucket`) -/

def bucket_exists (name : String) (buckets : List String) : Bool :=
  buckets.contains name

def create_bucket (name : String) (buckets : List String) : List String :=
  buckets ++ [name]

/-- Models `ensure_bucket`: the caller-chosen bucket name is the identifier. -/
def ensure_bucket (name : String) (buckets : List String) : String × List String :=
  if bucket_exists name buckets then (name, buckets)
  else (name, create_bucket name buckets)

/-! ### IAM role resolution (`labrole_arn`) -/

def labrole_arn (partition account : String) : String :=
  "arn:" ++ partition ++ ":iam::" ++ account ++ ":role/" ++ ROLE_NAME

/-! ### DynamoDB (`ensure_inventory_table`) -/

structure KeyElem where
  attributeName : String
  keyType : String
deriving DecidableEq, Repr

structure CreateTableRequest where
  tableName : String
  keySchema : List KeyElem
  attributeDefinitions : List (String × String)
  billingMode : String
  streamEnabled : Bool
  streamViewType : String
deriving DecidableEq, Repr

/-- The create-table request issued by `ensure_inventory_table`. -/
def inventory_table_request (name : String) : CreateTableRequest :=
  { tableName := name
    keySchema := [⟨"store", "HASH"⟩, ⟨"item", "RANGE"⟩]
    attributeDefinitions := [("store", "S"), ("item", "S")]
    billingMode := "PAY_PER_REQUEST"
    streamEnabled := true
    streamViewType := "NEW_AND_OLD_IMAGES" }

structure TableInfo where
  arn : String
  keySchema : List KeyElem
  streamEnabled : Bool
  streamViewType : String
  streamArn : Option String
deriving DecidableEq, Repr

def mkTableArn (region account name : String) : String :=
  "arn:aws:dynamodb:" ++ region ++ ":" ++ account ++ ":table/" ++ name

/-- Models `dynamodb.create_table`: errors with the conflict signal
(`ResourceInUseException`) when the table already exists. -/
def create_table (region account : String) (req : CreateTableRequest)
    (tables : List (String × TableInfo)) : Except Unit (List (String × TableInfo)) :=
  match List.lookup req.tableName tables with
  | some _ => Except.error ()
  | none =>
    let arn := mkTableArn region account req.tableName
    Except.ok (tables ++ [(req.tableName,
      { arn := arn
        keySchema := req.keySchema
        streamEnabled := req.streamEnabled
        streamViewType := req.streamViewType
        streamArn := if req.streamEnabled then some (arn ++ "/stream/latest") else none })])

/-- Models `ensure_inventory_table`: try create, absorb the conflict, then
describe and return the table ARN. -/
def ensure_inventory_table (region account name : String)
    (tables : List (String × TableInfo)) : Option String × List (String × TableInfo) :=
  let tables1 :=
    match create_table region account (inventory_table_request name) tables with
    | Except.ok t => t
    | Except.error _ => tables
  ((List.lookup name tables1).map (fun info => info.arn), tables1)

/-! ### Lambda (`ensure_lambda_generic`) -/

inductive LambdaOp
  | createFunction (name : String)
  | updateFunctionCode (name : String)
  | waitFunctionUpdated (name : String)
  | updateFunctionConfiguration (name : String)
deriving DecidableEq, Repr

def base_arn (region account function_name : String) : String :=
  "arn:aws:lambda:" ++ region ++ ":" ++ account ++ ":function:" ++ function_name

/-- Models `ensure_lambda_generic`: create, and on the already-exists conflict
update code, wait for the update to finish, then update configuration.
Returns the base ARN, the updated set of existing functions, and the
trace of issued calls. -/
def ensure_lambda_generic (region account function_name : String)
    (functions : List String) : String × List String × List LambdaOp :=
  if function_name ∈ functions then
    (base_arn region account function_name, functions,
     [LambdaOp.createFunction function_name,
      LambdaOp.updateFunctionCode function_name,
      LambdaOp.waitFunctionUpdated function_name,
      LambdaOp.updateFunctionConfiguration function_name])
  else
    (base_arn region account function_name, functions ++ [function_name],
     [LambdaOp.createFunction function_name])

/-- Scans a lambda-call trace and checks that every configuration update
is preceded by a completed wait on the code update: the first flag records
whether a code update was issued, the second whether a wait was observed
after it. -/
def configAfterConfirmedCode (seenCode seenWait : Bool) : List LambdaOp → Bool
  | [] => true
  | LambdaOp.createFunction _ :: rest => configAfterConfirmedCode seenCode seenWait rest
  | LambdaOp.updateFunctionCode _ :: rest => configAfterConfirmedCode true seenWait rest
  | LambdaOp.waitFunctionUpdated _ :: rest =>
      configAfterConfirmedCode seenCode (seenWait || seenCode) rest
  | LambdaOp.updateFunctionConfiguration _ :: rest =>
      seenWait && configAfterConfirmedCode seenCode seenWait rest

/-! ### API Gateway (`ensure_http_api`) -/

structure Api where
  name : String
  apiId : String
  integrations : Nat
  routes : List String
  hasStage : Bool
deriving DecidableEq, Repr

structure GwState where
  apis : List Api
  freshApiId : String
deriving DecidableEq, Repr

inductive GwOp
  | getApis
  | createApi (name : String)
  | addPermission (apiId : String)
  | createIntegration (apiId : String)
  | createRoute (apiId routeKey : String)
  | createStage (apiId : String)
deriving DecidableEq, Repr

def isCreateIntegration : GwOp → Bool
  | GwOp.createIntegration _ => true
  | _ => false

/-- Rewrites the first list element satisfying the predicate; remote ids
are unique, so at most one api is affected by an id-keyed update. -/
def updateFirst (p : Api → Bool) (f : Api → Api) : List Api → List Api
  | [] => []
  | a :: as => if p a then f a :: as else a :: updateFirst p f as

/-- Models `create_integration`: unconditional; increments the integration count
of the api and returns a provider-assigned integration id. -/
def create_integration (apis : List Api) (apiId : String) : List Api × String :=
  (updateFirst (fun a => a.apiId == apiId)
    (fun a => { a with integrations := a.integrations + 1 }) apis,
   apiId ++ "-integration")

/-- Models `create_route`: the conflict (route key already present) is absorbed. -/
def create_route (apis : List Api) (apiId routeKey target : String) : List Api :=
  updateFirst (fun a => a.apiId == apiId)
    (fun a => if routeKey ∈ a.routes then a else { a with routes := a.routes ++ [routeKey] })
    apis

/-- Models `create_stage`: the conflict (stage already present) is absorbed. -/
def create_stage (apis : List Api) (apiId : String) : List Api :=
  updateFirst (fun a => a.apiId == apiId) (fun a => { a with hasStage := true }) apis

def routeKeys : List String := ["GET /items", "GET /items/{store}"]

def mkEndpoint (region apiId : String) : String :=
  "https://" ++ apiId ++ ".execute-api." ++ region ++ ".amazonaws.com"

/-- Models `ensure_http_api`: find the api by name (create it when absent), grant
invoke permission (conflict absorbed), create an integration
unconditionally, create routes and the stage (conflicts absorbed), and
return the endpoint together with the new state and the call trace. -/
def ensure_http_api (region api_name lambda_arn : String) (gs : GwState) :
    String × GwState × List GwOp :=
  let found := gs.apis.find? (fun a => a.name == api_name)
  let api_id :=
    match found with
    | some a => a.apiId
    | none => gs.freshApiId
  let apis0 :=
    match found with
    | some _ => gs.apis
    | none => gs.apis ++ [{ name := api_name, apiId := gs.freshApiId,
                            integrations := 0, routes := [], hasStage := false }]
  let createOps :=
    match found with
    | some _ => [GwOp.getApis]
    | none => [GwOp.getApis, GwOp.createApi api_name]
  let apis1 := (create_integration apis0 api_id).1
  let integration_id := (create_integration apis0 api_id).2
  let apis2 := routeKeys.foldl
    (fun acc rk => create_route acc api_id rk ("integrations/" ++ integration_id)) apis1
  let apis3 := create_stage apis2 api_id
  let ops := createOps ++ [GwOp.addPermission api_id, GwOp.createIntegration api_id] ++
    routeKeys.map (fun rk => GwOp.createRoute api_id rk) ++ [GwOp.createStage api_id]
  (mkEndpoint region api_id, { gs with apis := apis3 }, ops)

def namesIds (apis : List Api) : List (String × String) :=
  apis.map (fun a => (a.name, a.apiId))

def lookupIdByName (apis : List Api) (n : String) : Option String :=
  (apis.find? (fun a => a.name == n)).map (fun a => a.apiId)

def sumIntegrations (apis : List Api) : Nat :=
  (apis.map (fun a => a.integrations)).sum

/-! ### SNS (`ensure_sns_topic`) -/

def mkTopicArn (region account name : String) : String :=
  "arn:aws:sns:" ++ region ++ ":" ++ account ++ ":" ++ name

/-- Models `sns.create_topic`: idempotent at the provider; returns the existing
ARN when the name is already taken. -/
def create_topic (region account name : String) (topics : List (String × String)) :
    String × List (String × String) :=
  match List.lookup name topics with
  | some arn => (arn, topics)
  | none =>
    let arn := mkTopicArn region account name
    (arn, topics ++ [(name, arn)])

def ensure_sns_topic (region account topic_name : String)
    (topics : List (String × String)) : String × List (String × String) :=
  create_topic region account topic_name topics

/-! ### Static site (`deploy_static_site`) -/

def websiteHost (region : String) : String :=
  if region = "us-east-1" then "s3-website-us-east-1.amazonaws.com"
  else "s3-website-" ++ region ++ ".amazonaws.com"

/-- Models `deploy_static_site`: returns the website URL, or nothing when the
local index asset is missing (in which case the upload is skipped). -/
def deploy_static_site (region web_bucket api_url : String) (hasIndexHtml : Bool) :
    Option String :=
  if hasIndexHtml then some ("http://" ++ web_bucket ++ "." ++ websiteHost region ++ "/")
  else none

/-! ### The apply run (`__main__` of `deploy_script.py`) -/

/-- The shelve record keyed by the strings used in the source:
"suffix", "uploads-bucket", "web-bucket", "api-url", "web-url",
"table-arn", "sns-arn". -/
structure DeployStore where
  suffix : Option String
  uploadsBucket : Option String
  webBucket : Option String
  apiUrl : Option String
  webUrl : Option String
  tableArn : Option String
  snsArn : Option String
deriving DecidableEq, Repr

def DeployStore.initial : DeployStore :=
  ⟨none, none, none, none, none, none, none⟩

/-- One provisioning step of the apply run: its name, the identifier its
create/update path returned, and the State Store contents at the moment
the step began. -/
structure StepRecord where
  name : String
  identifier : String
  storeAtStart : DeployStore
deriving DecidableEq, Repr

structure DeployRemote where
  region : String
  account : String
  partition : String
  buckets : List String
  tables : List (String × TableInfo)
  functions : List String
  gw : GwState
  topics : List (String × String)
  hasIndexHtml : Bool
deriving DecidableEq, Repr

/-- The apply run.  `fresh` stands for the date+uuid value `unique_suffix()`
would generate on this run; it is consumed only when no suffix is stored.
Returns the step log, the final store, and the final remote state. -/
def deploy_main (st0 : DeployStore) (fresh : String) (r : DeployRemote) :
    List StepRecord × DeployStore × DeployRemote :=
  let suffix := st0.suffix.getD fresh
  let uploads_bucket := "inventory-uploads-" ++ suffix
  let web_bucket := "inventory-web-" ++ suffix
  let sns_topic_name := "NoStock-" ++ suffix
  let st1 : DeployStore :=
    { st0 with suffix := some suffix
               uploadsBucket := some uploads_bucket
               webBucket := some web_bucket }
  let r1 := ensure_bucket uploads_bucket r.buckets
  let r2 := ensure_bucket web_bucket r1.2
  let tbl := ensure_inventory_table r.region r.account TABLE_NAME r.tables
  let table_arn := tbl.1
  let role := labrole_arn r.partition r.account
  let loader := ensure_lambda_generic r.region r.account LOADER_FUNC_NAME r.functions
  let apiL := ensure_lambda_generic r.region r.account API_FUNC_NAME loader.2.1
  let gw := ensure_http_api r.region "InventoryAPI" apiL.1 r.gw
  let api_url := gw.1
  let sns := ensure_sns_topic r.region r.account sns_topic_name r.topics
  let notify := ensure_lambda_generic r.region r.account NOTIFY_FUNC_NAME apiL.2.1
  let streamArn := (List.lookup TABLE_NAME tbl.2).bind (fun info => info.streamArn)
  let web_url := deploy_static_site r.region web_bucket api_url r.hasIndexHtml
  let stFinal : DeployStore :=
    { st1 with apiUrl := some api_url
               webUrl := web_url
               tableArn := table_arn
               snsArn := some sns.1 }
  let log : List StepRecord :=
    [⟨"ensure_bucket " ++ uploads_bucket, uploads_bucket, st1⟩,
     ⟨"ensure_bucket " ++ web_bucket, web_bucket, st1⟩,
     ⟨"ensure_inventory_table", table_arn.getD "", st1⟩,
     ⟨"labrole_arn", role, st1⟩,
     ⟨"ensure_lambda_generic " ++ LOADER_FUNC_NAME, loader.1, st1⟩,
     ⟨"ensure_lambda_generic " ++ API_FUNC_NAME, apiL.1, st1⟩,
     ⟨"ensure_http_api", api_url, st1⟩,
     ⟨"ensure_sns_topic", sns.1, st1⟩,
     ⟨"subscribe_email", "", st1⟩,
     ⟨"ensure_lambda_generic " ++ NOTIFY_FUNC_NAME, notify.1, st1⟩,
     ⟨"configure_s3_lambda_trigger", "", st1⟩] ++
    (streamArn.toList.map (fun sa => ⟨"create_dynamodb_trigger", sa, st1⟩)) ++
    [⟨"deploy_static_site", web_url.getD "", st1⟩,
     ⟨"upload_initial_data", "", st1⟩]
  let rFinal : DeployRemote :=
    { r with buckets := r2.2
             tables := tbl.2
             functions := notify.2.1
             gw := gw.2.1
             topics := sns.2 }
  (log, stFinal, rFinal)

end Deploy

namespace Teardown

def LOADER_FUNC : String := "LoadInventoryFunction"

def API_FUNC : String := "GetInventoryApiFunction"

def NOTIFY_FUNC : String := "NotifyLowStockFunction"

def TABLE_NAME : String := "Inventory"

/-- An object-or-version reference listed in a bucket; the second loop of
`empty_bucket` lists plain keys, modelled with an absent version id. -/
structure ObjRef where
  key : String
  versionId : Option String
deriving DecidableEq, Repr

/-- One page of `list_object_versions`: current versions and delete
markers. -/
structure VersionPage where
  versions : List ObjRef
  deleteMarkers : List ObjRef
deriving DecidableEq, Repr

inductive AwsCall
  | deleteApi (apiId : String)
  | listEventSourceMappings (functionName : String)
  | deleteEventSourceMapping (uuid : String)
  | deleteFunction (functionName : String)
  | deleteTable (tableName : String)
  | waitTableNotExists (tableName : String)
  | deleteTopic (topicArn : String)
  | getBucketLocation (bucket : String)
  | listObjectVersions (bucket : String)
  | deleteObjects (bucket : String) (batch : List ObjRef)
  | listObjectsV2 (bucket : String)
  | deleteBucket (bucket : String)
deriving DecidableEq, Repr

inductive Event
  | clearStore
  | call (c : AwsCall)
  | logInfo (tag : String)
  | logError (tag : String)
deriving DecidableEq, Repr

def isCall : Event → Bool
  | Event.call _ => true
  | _ => false

/-- Which calls target the resources whose identity teardown reads from
the State Store (gateway, topic, buckets). -/
def touchesStoreResources : AwsCall → Bool
  | AwsCall.deleteApi _ => true
  | AwsCall.deleteTopic _ => true
  | AwsCall.getBucketLocation _ => true
  | AwsCall.listObjectVersions _ => true
  | AwsCall.deleteObjects _ _ => true
  | AwsCall.listObjectsV2 _ => true
  | AwsCall.deleteBucket _ => true
  | _ => false

/-- The observable remote state teardown runs against, fixing the outcome
of every call: an absent resource yields the provider's not-found signal. -/
structure Remote where
  apiIds : List String
  functions : List String
  mappings : String → List String
  tables : List String
  buckets : List String
  versionPages : String → List VersionPage
  objectPages : String → List (List String)

def Remote.emptyRemote : Remote :=
  ⟨[], [], fun _ => [], [], [], fun _ => [], fun _ => []⟩

/-- The slicing loop `for i in range(0, len(xs), 1000): xs[i:i+1000]`
used by `empty_bucket` to batch deletions. -/
def slice_batches {α : Type} (l : List α) : List (List α) :=
  (List.range ((l.length + 999) / 1000)).map (fun i => (l.drop (1000 * i)).take 1000)

/-- Models `empty_bucket`: page through versions and delete markers, batch-delete
them, then page through plain objects and batch-delete those; a missing
bucket is reported as already gone and absorbed. -/
def empty_bucket (r : Remote) (bucket : String) : List Event :=
  if bucket.isEmpty then []
  else if bucket ∈ r.buckets then
    [Event.call (AwsCall.listObjectVersions bucket)] ++
    ((r.versionPages bucket).flatMap (fun page =>
      (slice_batches (page.versions ++ page.deleteMarkers)).map
        (fun batch => Event.call (AwsCall.deleteObjects bucket batch)))) ++
    [Event.call (AwsCall.listObjectsV2 bucket)] ++
    ((r.objectPages bucket).flatMap (fun page =>
      (slice_batches (page.map (fun k => ObjRef.mk k none))).map
        (fun batch => Event.call (AwsCall.deleteObjects bucket batch))))
  else
    [Event.call (AwsCall.listObjectVersions bucket), Event.logInfo "s3-already-gone"]

/-- Models `delete_bucket`: locate, empty, then delete; the not-found signal from
the location call is absorbed silently. -/
def delete_bucket (r : Remote) (bucket_name : Option String) : List Event :=
  match bucket_name with
  | none => []
  | some b =>
    if b.isEmpty then []
    else if b ∈ r.buckets then
      Event.call (AwsCall.getBucketLocation b) :: empty_bucket r b ++
        [Event.call (AwsCall.deleteBucket b), Event.logInfo "s3-deleted"]
    else
      [Event.call (AwsCall.getBucketLocation b)]

/-- Models `delete_lambda`: the not-found signal is absorbed silently; any other
client error would be logged. -/
def delete_lambda (r : Remote) (func_name : String) : List Event :=
  if func_name ∈ r.functions then
    [Event.call (AwsCall.deleteFunction func_name), Event.logInfo "lambda-deleted"]
  else
    [Event.call (AwsCall.deleteFunction func_name)]

/-- Models `delete_dynamo_table`: delete then wait; the not-found signal is
absorbed silently (and the wait is skipped). -/
def delete_dynamo_table (r : Remote) (table_name : String) : List Event :=
  if table_name ∈ r.tables then
    [Event.call (AwsCall.deleteTable table_name), Event.logInfo "ddb-deleted",
     Event.call (AwsCall.waitTableNotExists table_name)]
  else
    [Event.call (AwsCall.deleteTable table_name)]

/-- Python `str.split(sep)` on character lists (nonempty separator): cut
at every non-overlapping occurrence of the separator, keeping empty
segments.  The fuel is the structural measure; callers pass at least the
input length plus one, so the zero-fuel branch is unreachable. -/
def splitOnAux (sep : List Char) (fuel : Nat) (l : List Char) (acc : List Char) :
    List (List Char) :=
  match fuel with
  | 0 => [acc.reverse ++ l]
  | fuel + 1 =>
    match l with
    | [] => [acc.reverse]
    | c :: rest =>
      if sep.isPrefixOf (c :: rest) && !sep.isEmpty then
        acc.reverse :: splitOnAux sep fuel ((c :: rest).drop sep.length) []
      else
        splitOnAux sep fuel rest (c :: acc)

def pySplit (s sep : String) : List String :=
  (splitOnAux sep.toList (s.toList.length + 1) s.toList []).map (fun cs => cs.asString)

/-- Models `api_url.split("https://")[1].split(".")[0]`; an out-of-range index
surfaces as an absent result (the caught IndexError). -/
def extractApiId (api_url : String) : Option String :=
  ((pySplit api_url "https://").get? 1).map (fun rest => (pySplit rest ".").headD "")

/-- Models `delete_api_gateway`: its catch clause does not distinguish the
not-found signal from any other failure; both are reported through the
error log and absorbed. -/
def delete_api_gateway (r : Remote) (api_url : Option String) : List Event :=
  match api_url with
  | none => []
  | some url =>
    if url.isEmpty then []
    else
      match extractApiId url with
      | none => [Event.logError "apigw"]
      | some api_id =>
        if api_id ∈ r.apiIds then
          [Event.call (AwsCall.deleteApi api_id), Event.logInfo "apigw-deleted"]
        else
          [Event.call (AwsCall.deleteApi api_id), Event.logError "apigw"]

/-- Models `delete_sns_topic`: topic deletion is idempotent at the provider, so
the call succeeds whether or not the topic still exists. -/
def delete_sns_topic (topic_arn : Option String) : List Event :=
  match topic_arn with
  | none => []
  | some arn =>
    if arn.isEmpty then []
    else [Event.call (AwsCall.deleteTopic arn), Event.logInfo "sns-deleted"]

/-- Models `delete_triggers`: list the event-source mappings of a function and
delete each; every client error is absorbed silently. -/
def delete_triggers (r : Remote) (func_name : String) : List Event :=
  Event.call (AwsCall.listEventSourceMappings func_name) ::
    (r.mappings func_name).flatMap
      (fun u => [Event.call (AwsCall.deleteEventSourceMapping u),
                 Event.logInfo "trigger-deleted"])

/-- The four keys teardown reads from the shelve record. -/
structure StateStore where
  uploadsBucket : Option String
  webBucket : Option String
  apiUrl : Option String
  snsArn : Option String
deriving DecidableEq, Repr

def StateStore.emptyStore : StateStore := ⟨none, none, none, none⟩

/-- The teardown run (`__main__` of `teardown.py`): read the four keys,
clear the record, then delete gateway, triggers and functions, table,
topic, and finally the two buckets.  Returns the event trace and the
final store. -/
def teardown_main (r : Remote) (db : StateStore) : List Event × StateStore :=
  let events :=
    Event.clearStore ::
    (delete_api_gateway r db.apiUrl ++
     ([LOADER_FUNC, API_FUNC, NOTIFY_FUNC].flatMap
        (fun f => delete_triggers r f ++ delete_lambda r f)) ++
     delete_dynamo_table r TABLE_NAME ++
     delete_sns_topic db.snsArn ++
     delete_bucket r db.uploadsBucket ++
     delete_bucket r db.webBucket)
  (events, StateStore.emptyStore)

/-- The batches sent by the `deleteObjects` calls of an event trace. -/
def deleteBatches (evs : List Event) : List (List ObjRef) :=
  evs.filterMap (fun e =>
    match e with
    | Event.call (AwsCall.deleteObjects _ batch) => some batch
    | _ => none)

/-- A store as left by a completed apply run, for concrete scenarios. -/
def fullStore : StateStore :=
  { uploadsBucket := some "inventory-uploads-20240101-abcd1234"
    webBucket := some "inventory-web-20240101-abcd1234"
    apiUrl := some "https://abc123.execute-api.us-east-1.amazonaws.com"
    snsArn := some "arn:aws:sns:us-east-1:123456789012:NoStock-20240101-abcd1234" }

/-- A remote with one bucket holding a version, a delete marker and a
plain object, for concrete scenarios. -/
def bucketRemote : Remote :=
  { apiIds := []
    functions := []
    mappings := fun _ => []
    tables := []
    buckets := ["inventory-uploads-20240101-abcd1234"]
    versionPages := fun b =>
      if b = "inventory-uploads-20240101-abcd1234" then
        [{ versions := [⟨"a.csv", some "v1"⟩], deleteMarkers := [⟨"a.csv", some "v2"⟩] }]
      else []
    objectPages := fun b =>
      if b = "inventory-uploads-20240101-abcd1234" then [["b.csv"]] else [] }

end Teardown

namespace Deploy

/-- A remote with no pre-existing resources, for concrete scenarios. -/
def freshRemote : DeployRemote :=
  { region := "us-east-1"
    account := "123456789012"
    partition := "aws"
    buckets := []
    tables := []
    functions := []
    gw := { apis := [], freshApiId := "abc123" }
    topics := []
    hasIndexHtml := true }

/-- A store holding the suffix of an earlier run, for concrete scenarios. -/
def resumedStore : DeployStore :=
  { suffix := some "20240101-abcd1234"
    uploadsBucket := some "inventory-uploads-20240101-abcd1234"
    webBucket := some "inventory-web-20240101-abcd1234"
    apiUrl := none
    webUrl := none
    tableArn := none
    snsArn := none }

/-- The first step record of a fresh run with suffix `20240101-abcd1234`
against `freshRemote`; its store-at-start coincides with `resumedStore`
(suffix and bucket names written, nothing else). -/
def firstStepRec : StepRecord :=
  { name := "ensure_bucket inventory-uploads-20240101-abcd1234"
    identifier := "inventory-uploads-20240101-abcd1234"
    storeAtStart := resumedStore }

end Deploy

/-! ## Helper lemmas -/

theorem filterMap_flatMap {α β γ : Type} (l : List α) (f : α → List β) (g : β → Option γ) :
    (l.flatMap f).filterMap g = l.flatMap (fun a => (f a).filterMap g) := by
  induction l with
  | nil => simp
  | cons a as ih => simp [List.filterMap_append, ih]

theorem flatten_flatMap {α β : Type} (l : List α) (f : α → List (List β)) :
    (l.flatMap f).flatten = l.flatMap (fun a => (f a).flatten) := by
  induction l with
  | nil => simp
  | cons a as ih => simp [List.flatten_append, ih]

theorem range_chunks_flatten {α : Type} (n : Nat) (l : List α) (h : l.length ≤ 1000 * n) :
    ((List.range n).map (fun i => (l.drop (1000 * i)).take 1000)).flatten = l := by
  induction n generalizing l with
  | zero =>
    have : l = [] := List.eq_nil_of_length_eq_zero (by omega)
    subst this
    simp
  | succ n ih =>
    rw [List.range_succ_eq_map]
    simp only [List.map_cons, List.map_map, List.flatten_cons]
    have hrest : (List.range n).map ((fun i => (l.drop (1000 * i)).take 1000) ∘ Nat.succ)
        = (List.range n).map (fun i => ((l.drop 1000).drop (1000 * i)).take 1000) := by
      refine List.map_congr_left fun i _ => ?_
      simp only [Function.comp_apply, List.drop_drop]
      have hm : 1000 * Nat.succ i = 1000 + 1000 * i := by omega
      rw [hm]
    rw [hrest, ih (l.drop 1000) (by rw [List.length_drop]; omega)]
    simp only [Nat.mul_zero, List.drop_zero]
    exact List.take_append_drop 1000 l

theorem slice_batches_flatten {α : Type} (l : List α) :
    (Teardown.slice_batches l).flatten = l := by
  refine range_chunks_flatten _ l ?_
  omega

theorem slice_batches_le {α : Type} (l : List α) (b : List α)
    (hb : b ∈ Teardown.slice_batches l) : b.length ≤ 1000 := by
  simp only [Teardown.slice_batches, List.mem_map, List.mem_range] at hb
  obtain ⟨i, _, rfl⟩ := hb
  simp only [List.length_take]
  omega

theorem lookup_append_of_none {β : Type} (k : String) (l l' : List (String × β))
    (h : List.lookup k l = none) : List.lookup k (l ++ l') = List.lookup k l' := by
  induction l with
  | nil => simp
  | cons p ps ih =>
    obtain ⟨a, b⟩ := p
    rw [List.cons_append]
    simp only [List.lookup] at h ⊢
    by_cases hk : k = a
    · subst hk
      rw [beq_self_eq_true] at h
      simp at h
    · rw [show (k == a) = false from beq_eq_false_iff_ne.mpr hk] at h ⊢
      exact ih h

/-! Shape lemmas for the teardown delete routines: which provider calls
each of them can issue, and that each issues its delete attempt. -/

theorem call_of_mem_delete_triggers (r : Teardown.Remote) (fn : String)
    (c : Teardown.AwsCall) (hc : Teardown.Event.call c ∈ Teardown.delete_triggers r fn) :
    c = Teardown.AwsCall.listEventSourceMappings fn
      ∨ ∃ u, c = Teardown.AwsCall.deleteEventSourceMapping u := by
  simp only [Teardown.delete_triggers, List.mem_cons, List.mem_flatMap] at hc
  rcases hc with hc | ⟨u, _, hc⟩
  · left
    exact (Teardown.Event.call.injEq _ _).mp hc
  · right
    simp only [List.mem_cons, List.not_mem_nil, or_false] at hc
    rcases hc with hc | hc
    · exact ⟨u, (Teardown.Event.call.injEq _ _).mp hc⟩
    · exact absurd hc (by simp)

theorem call_of_mem_delete_lambda (r : Teardown.Remote) (fn : String)
    (c : Teardown.AwsCall) (hc : Teardown.Event.call c ∈ Teardown.delete_lambda r fn) :
    c = Teardown.AwsCall.deleteFunction fn := by
  unfold Teardown.delete_lambda at hc
  split at hc <;> simp_all

theorem call_of_mem_delete_table (r : Teardown.Remote) (t : String)
    (c : Teardown.AwsCall) (hc : Teardown.Event.call c ∈ Teardown.delete_dynamo_table r t) :
    c = Teardown.AwsCall.deleteTable t ∨ c = Teardown.AwsCall.waitTableNotExists t := by
  unfold Teardown.delete_dynamo_table at hc
  split at hc <;> simp_all

theorem mem_delete_lambda_call (r : Teardown.Remote) (fn : String) :
    Teardown.Event.call (Teardown.AwsCall.deleteFunction fn) ∈ Teardown.delete_lambda r fn := by
  unfold Teardown.delete_lambda
  split <;> simp

theorem mem_delete_table_call (r : Teardown.Remote) (t : String) :
    Teardown.Event.call (Teardown.AwsCall.deleteTable t) ∈ Teardown.delete_dynamo_table r t := by
  unfold Teardown.delete_dynamo_table
  split <;> simp

theorem mem_delete_bucket_call (r : Teardown.Remote) (b : String) (hb : b.isEmpty = false) :
    Teardown.Event.call (Teardown.AwsCall.getBucketLocation b)
      ∈ Teardown.delete_bucket r (some b) := by
  simp only [Teardown.delete_bucket, hb, Bool.false_eq_true, if_false]
  split <;> simp

theorem mem_delete_api_call (r : Teardown.Remote) (url aid : String)
    (hurl : url.isEmpty = false) (hid : Teardown.extractApiId url = some aid) :
    Teardown.Event.call (Teardown.AwsCall.deleteApi aid)
      ∈ Teardown.delete_api_gateway r (some url) := by
  simp only [Teardown.delete_api_gateway, hurl, hid, Bool.false_eq_true, if_false]
  split <;> simp

theorem mem_delete_topic_call (arn : String) (harn : arn.isEmpty = false) :
    Teardown.Event.call (Teardown.AwsCall.deleteTopic arn)
      ∈ Teardown.delete_sns_topic (some arn) := by
  simp [Teardown.delete_sns_topic, harn]

/-! ## Claims about the Teardown Engine -/

/-- Claim C1, as stated, is false at a concrete input: a teardown run
started with an empty State Store still issues provider calls — it
deletes the hardcoded functions and table. -/
theorem claim1_counterexample :
    Teardown.Event.call (Teardown.AwsCall.deleteFunction "LoadInventoryFunction")
        ∈ (Teardown.teardown_main Teardown.Remote.emptyRemote Teardown.StateStore.emptyStore).1
    ∧ Teardown.Event.call (Teardown.AwsCall.deleteTable "Inventory")
        ∈ (Teardown.teardown_main Teardown.Remote.emptyRemote Teardown.StateStore.emptyStore).1 := by
  exact ⟨by decide, by decide⟩

/-- Claim C1 (amended): a teardown run with an empty State Store issues
no calls against the store-derived resources (gateway, topic, buckets),
but still issues the trigger-listing, function-deletion and
table-deletion calls for the hardcoded names, and completes. -/
theorem claim1_thm (r : Teardown.Remote) :
    (∀ c : Teardown.AwsCall,
        Teardown.Event.call c ∈ (Teardown.teardown_main r Teardown.StateStore.emptyStore).1 →
        Teardown.touchesStoreResources c = false)
    ∧ Teardown.Event.call (Teardown.AwsCall.deleteFunction Teardown.LOADER_FUNC)
        ∈ (Teardown.teardown_main r Teardown.StateStore.emptyStore).1
    ∧ Teardown.Event.call (Teardown.AwsCall.deleteFunction Teardown.API_FUNC)
        ∈ (Teardown.teardown_main r Teardown.StateStore.emptyStore).1
    ∧ Teardown.Event.call (Teardown.AwsCall.deleteFunction Teardown.NOTIFY_FUNC)
        ∈ (Teardown.teardown_main r Teardown.StateStore.emptyStore).1
    ∧ Teardown.Event.call (Teardown.AwsCall.deleteTable Teardown.TABLE_NAME)
        ∈ (Teardown.teardown_main r Teardown.StateStore.emptyStore).1 := by
  have htrace : (Teardown.teardown_main r Teardown.StateStore.emptyStore).1
      = Teardown.Event.clearStore ::
        (([Teardown.LOADER_FUNC, Teardown.API_FUNC, Teardown.NOTIFY_FUNC].flatMap
            (fun f => Teardown.delete_triggers r f ++ Teardown.delete_lambda r f)) ++
         Teardown.delete_dynamo_table r Teardown.TABLE_NAME) := by
    simp [Teardown.teardown_main, Teardown.StateStore.emptyStore, Teardown.delete_api_gateway,
          Teardown.delete_sns_topic, Teardown.delete_bucket]
  have hfun : ∀ f ∈ [Teardown.LOADER_FUNC, Teardown.API_FUNC, Teardown.NOTIFY_FUNC],
      Teardown.Event.call (Teardown.AwsCall.deleteFunction f)
        ∈ (Teardown.teardown_main r Teardown.StateStore.emptyStore).1 := by
    intro f hf
    rw [htrace]
    exact List.mem_cons_of_mem _ (List.mem_append_left _
      (List.mem_flatMap.mpr ⟨f, hf, List.mem_append_right _ (mem_delete_lambda_call r f)⟩))
  refine ⟨?_, hfun _ (by simp), hfun _ (by simp), hfun _ (by simp), ?_⟩
  · intro c hc
    rw [htrace] at hc
    rcases List.mem_cons.mp hc with h | h
    · exact absurd h (by simp)
    rcases List.mem_append.mp h with h | h
    · rcases List.mem_flatMap.mp h with ⟨f, _, hf⟩
      rcases List.mem_append.mp hf with hf | hf
      · rcases call_of_mem_delete_triggers r f c hf with h1 | ⟨u, h1⟩ <;> subst h1 <;> rfl
      · have h1 := call_of_mem_delete_lambda r f c hf
        subst h1
        rfl
    · rcases call_of_mem_delete_table r Teardown.TABLE_NAME c h with h1 | h1 <;>
        subst h1 <;> rfl
  · rw [htrace]
    exact List.mem_cons_of_mem _ (List.mem_append_right _ (mem_delete_table_call r _))

/-- Claim C2, as stated, is false at a concrete input: against an empty
remote, every store-derived deletion fails, yet the trace clears the
record first (before any deletion) and the store ends empty. -/
theorem claim2_counterexample :
    (Teardown.teardown_main Teardown.Remote.emptyRemote Teardown.fullStore).1.head?
        = some Teardown.Event.clearStore
    ∧ Teardown.Event.logError "apigw"
        ∈ (Teardown.teardown_main Teardown.Remote.emptyRemote Teardown.fullStore).1
    ∧ Teardown.Event.call (Teardown.AwsCall.deleteFunction "LoadInventoryFunction")
        ∈ (Teardown.teardown_main Teardown.Remote.emptyRemote Teardown.fullStore).1
    ∧ (Teardown.teardown_main Teardown.Remote.emptyRemote Teardown.fullStore).2
        = Teardown.StateStore.emptyStore := by
  exact ⟨rfl, by decide, by decide, rfl⟩

/-- Claim C2 (amended): the State Store record is cleared unconditionally
at the start of every teardown run — the clear is the first event, before
any deletion — and the final store is empty regardless of deletion
outcomes. -/
theorem claim2_thm (r : Teardown.Remote) (db : Teardown.StateStore) :
    (Teardown.teardown_main r db).1.head? = some Teardown.Event.clearStore
    ∧ (Teardown.teardown_main r db).2 = Teardown.StateStore.emptyStore := by
  exact ⟨rfl, rfl⟩

/-- Claim C8, as stated, is false at a concrete input: the gateway delete
routine reports a not-found response (absent api id) through its error
log rather than treating it as success — its catch clause does not
special-case not-found the way the function/table/bucket routines do. -/
theorem claim8_counterexample :
    Teardown.extractApiId "https://abc123.execute-api.us-east-1.amazonaws.com" = some "abc123"
    ∧ "abc123" ∉ Teardown.Remote.emptyRemote.apiIds
    ∧ Teardown.Event.logError "apigw"
        ∈ Teardown.delete_api_gateway Teardown.Remote.emptyRemote
            (some "https://abc123.execute-api.us-east-1.amazonaws.com") := by
  exact ⟨by decide, by decide, by decide⟩

/-- Claim C8 (amended): the function, table, bucket and trigger delete
routines treat not-found as silent success (no error event, no
propagation), while the gateway delete logs not-found as an error but
still absorbs it; and every resource kind's deletion is attempted in the
run regardless of the outcomes of the other kinds. -/
theorem claim8_thm (r : Teardown.Remote) (fn t b url aid arn ub wb : String)
    (db : Teardown.StateStore) :
    (fn ∉ r.functions →
      Teardown.delete_lambda r fn
        = [Teardown.Event.call (Teardown.AwsCall.deleteFunction fn)])
    ∧ (t ∉ r.tables →
      Teardown.delete_dynamo_table r t
        = [Teardown.Event.call (Teardown.AwsCall.deleteTable t)])
    ∧ (b.isEmpty = false → b ∉ r.buckets →
      Teardown.delete_bucket r (some b)
        = [Teardown.Event.call (Teardown.AwsCall.getBucketLocation b)])
    ∧ (∀ tag, Teardown.Event.logError tag ∉ Teardown.delete_triggers r fn)
    ∧ (db.apiUrl = some url → url.isEmpty = false → Teardown.extractApiId url = some aid →
      Teardown.Event.call (Teardown.AwsCall.deleteApi aid) ∈ (Teardown.teardown_main r db).1)
    ∧ Teardown.Event.call (Teardown.AwsCall.deleteFunction Teardown.LOADER_FUNC)
        ∈ (Teardown.teardown_main r db).1
    ∧ Teardown.Event.call (Teardown.AwsCall.deleteFunction Teardown.API_FUNC)
        ∈ (Teardown.teardown_main r db).1
    ∧ Teardown.Event.call (Teardown.AwsCall.deleteFunction Teardown.NOTIFY_FUNC)
        ∈ (Teardown.teardown_main r db).1
    ∧ Teardown.Event.call (Teardown.AwsCall.deleteTable Teardown.TABLE_NAME)
        ∈ (Teardown.teardown_main r db).1
    ∧ (db.snsArn = some arn → arn.isEmpty = false →
      Teardown.Event.call (Teardown.AwsCall.deleteTopic arn) ∈ (Teardown.teardown_main r db).1)
    ∧ (db.uploadsBucket = some ub → ub.isEmpty = false →
      Teardown.Event.call (Teardown.AwsCall.getBucketLocation ub) ∈ (Teardown.teardown_main r db).1)
    ∧ (db.webBucket = some wb → wb.isEmpty = false →
      Teardown.Event.call (Teardown.AwsCall.getBucketLocation wb) ∈ (Teardown.teardown_main r db).1) := by
  have htrace : (Teardown.teardown_main r db).1
      = Teardown.Event.clearStore ::
        (Teardown.delete_api_gateway r db.apiUrl ++
         ([Teardown.LOADER_FUNC, Teardown.API_FUNC, Teardown.NOTIFY_FUNC].flatMap
            (fun f => Teardown.delete_triggers r f ++ Teardown.delete_lambda r f)) ++
         Teardown.delete_dynamo_table r Teardown.TABLE_NAME ++
         Teardown.delete_sns_topic db.snsArn ++
         Teardown.delete_bucket r db.uploadsBucket ++
         Teardown.delete_bucket r db.webBucket) := rfl
  have hfun : ∀ f ∈ [Teardown.LOADER_FUNC, Teardown.API_FUNC, Teardown.NOTIFY_FUNC],
      Teardown.Event.call (Teardown.AwsCall.deleteFunction f) ∈ (Teardown.teardown_main r db).1 := by
    intro f hf
    rw [htrace]
    refine List.mem_cons_of_mem _ ?_
    refine List.mem_append_left _ (List.mem_append_left _ (List.mem_append_left _
      (List.mem_append_left _ (List.mem_append_right _ ?_))))
    exact List.mem_flatMap.mpr ⟨f, hf, List.mem_append_right _ (mem_delete_lambda_call r f)⟩
  refine ⟨?_, ?_, ?_, ?_, ?_, hfun _ (by simp), hfun _ (by simp), hfun _ (by simp), ?_, ?_, ?_, ?_⟩
  · intro h
    simp [Teardown.delete_lambda, h]
  · intro h
    simp [Teardown.delete_dynamo_table, h]
  · intro h1 h2
    simp [Teardown.delete_bucket, h1, h2]
  · intro tag h
    simp only [Teardown.delete_triggers, List.mem_cons, List.mem_flatMap] at h
    rcases h with h | ⟨u, _, h⟩
    · exact absurd h (by simp)
    · simp at h
  · intro h1 h2 h3
    rw [htrace, h1]
    refine List.mem_cons_of_mem _ ?_
    refine List.mem_append_left _ (List.mem_append_left _ (List.mem_append_left _
      (List.mem_append_left _ (List.mem_append_left _ ?_))))
    exact mem_delete_api_call r url aid h2 h3
  · rw [htrace]
    refine List.mem_cons_of_mem _ ?_
    refine List.mem_append_left _ (List.mem_append_left _ (List.mem_append_left _
      (List.mem_append_right _ ?_)))
    exact mem_delete_table_call r _
  · intro h1 h2
    rw [htrace, h1]
    refine List.mem_cons_of_mem _ ?_
    refine List.mem_append_left _ (List.mem_append_left _ (List.mem_append_right _ ?_))
    exact mem_delete_topic_call arn h2
  · intro h1 h2
    rw [htrace, h1]
    refine List.mem_cons_of_mem _ ?_
    refine List.mem_append_left _ (List.mem_append_right _ ?_)
    exact mem_delete_bucket_call r ub h2
  · intro h1 h2
    rw [htrace, h1]
    refine List.mem_cons_of_mem _ ?_
    refine List.mem_append_right _ ?_
    exact mem_delete_bucket_call r wb h2

/-- Witness for C8 (amended) at a concrete store and an empty remote. -/
theorem claim8_witness :
    ("LoadInventoryFunction" ∉ Teardown.Remote.emptyRemote.functions)
    ∧ Teardown.delete_lambda Teardown.Remote.emptyRemote "LoadInventoryFunction"
        = [Teardown.Event.call (Teardown.AwsCall.deleteFunction "LoadInventoryFunction")]
    ∧ Teardown.delete_dynamo_table Teardown.Remote.emptyRemote "Inventory"
        = [Teardown.Event.call (Teardown.AwsCall.deleteTable "Inventory")]
    ∧ Teardown.delete_bucket Teardown.Remote.emptyRemote
        (some "inventory-uploads-20240101-abcd1234")
        = [Teardown.Event.call
            (Teardown.AwsCall.getBucketLocation "inventory-uploads-20240101-abcd1234")]
    ∧ Teardown.Event.call (Teardown.AwsCall.deleteApi "abc123")
        ∈ (Teardown.teardown_main Teardown.Remote.emptyRemote Teardown.fullStore).1
    ∧ Teardown.Event.call
        (Teardown.AwsCall.deleteTopic "arn:aws:sns:us-east-1:123456789012:NoStock-20240101-abcd1234")
        ∈ (Teardown.teardown_main Teardown.Remote.emptyRemote Teardown.fullStore).1
    ∧ Teardown.Event.call
        (Teardown.AwsCall.getBucketLocation "inventory-uploads-20240101-abcd1234")
        ∈ (Teardown.teardown_main Teardown.Remote.emptyRemote Teardown.fullStore).1 := by
  have h := claim8_thm Teardown.Remote.emptyRemote "LoadInventoryFunction" "Inventory"
    "inventory-uploads-20240101-abcd1234"
    "https://abc123.execute-api.us-east-1.amazonaws.com" "abc123"
    "arn:aws:sns:us-east-1:123456789012:NoStock-20240101-abcd1234"
    "inventory-uploads-20240101-abcd1234" "inventory-web-20240101-abcd1234"
    Teardown.fullStore
  exact ⟨by decide, h.1 (by decide), h.2.1 (by decide), h.2.2.1 (by decide) (by decide),
    h.2.2.2.2.1 rfl (by decide) (by decide),
    h.2.2.2.2.2.2.2.2.2.1 rfl (by decide),
    h.2.2.2.2.2.2.2.2.2.2.1 rfl (by decide)⟩

/-- Claim C9: bucket emptying batch-deletes exactly the listed versions,
delete markers and plain objects (all of them, in order), and every
batch-delete call carries at most 1000 references. -/
theorem claim9_thm (r : Teardown.Remote) (bucket : String)
    (hb : bucket.isEmpty = false) (hmem : bucket ∈ r.buckets) :
    (Teardown.deleteBatches (Teardown.empty_bucket r bucket)).flatten
        = ((r.versionPages bucket).flatMap (fun page => page.versions ++ page.deleteMarkers))
          ++ ((r.objectPages bucket).flatMap
              (fun page => page.map (fun k => Teardown.ObjRef.mk k none)))
    ∧ ∀ batch ∈ Teardown.deleteBatches (Teardown.empty_bucket r bucket),
        batch.length ≤ 1000 := by
  have hev : Teardown.deleteBatches (Teardown.empty_bucket r bucket)
      = ((r.versionPages bucket).flatMap
          (fun page => Teardown.slice_batches (page.versions ++ page.deleteMarkers)))
        ++ ((r.objectPages bucket).flatMap
          (fun page => Teardown.slice_batches (page.map (fun k => Teardown.ObjRef.mk k none)))) := by
    simp only [Teardown.empty_bucket, hb, Bool.false_eq_true, if_false, hmem, if_true,
      Teardown.deleteBatches, List.filterMap_append, filterMap_flatMap, List.filterMap_map]
    simp [Function.comp_def, List.filterMap_cons]
  constructor
  · rw [hev, List.flatten_append, flatten_flatMap, flatten_flatMap]
    simp [slice_batches_flatten]
  · intro batch hbatch
    rw [hev] at hbatch
    rcases List.mem_append.mp hbatch with h | h <;>
      · rcases List.mem_flatMap.mp h with ⟨p, _, hp⟩
        exact slice_batches_le _ _ hp

/-- Witness for C9 on a concrete bucket with one version, one delete
marker and one plain object. -/
theorem claim9_witness :
    ("inventory-uploads-20240101-abcd1234" ∈ Teardown.bucketRemote.buckets)
    ∧ (Teardown.deleteBatches
        (Teardown.empty_bucket Teardown.bucketRemote "inventory-uploads-20240101-abcd1234")).flatten
        = [⟨"a.csv", some "v1"⟩, ⟨"a.csv", some "v2"⟩, ⟨"b.csv", none⟩]
    ∧ ∀ batch ∈ Teardown.deleteBatches
        (Teardown.empty_bucket Teardown.bucketRemote "inventory-uploads-20240101-abcd1234"),
        batch.length ≤ 1000 := by
  have h := claim9_thm Teardown.bucketRemote "inventory-uploads-20240101-abcd1234"
    (by decide) (by decide)
  refine ⟨by decide, ?_, h.2⟩
  rw [h.1]
  decide

/-! ## Deploy-side helper lemmas -/

theorem namesIds_updateFirst (p : Deploy.Api → Bool) (f : Deploy.Api → Deploy.Api)
    (hn : ∀ a, (f a).name = a.name) (hi : ∀ a, (f a).apiId = a.apiId)
    (l : List Deploy.Api) :
    Deploy.namesIds (Deploy.updateFirst p f l) = Deploy.namesIds l := by
  induction l with
  | nil => rfl
  | cons a as ih =>
    unfold Deploy.updateFirst
    split
    · simp [Deploy.namesIds, hn a, hi a]
    · simp only [Deploy.namesIds, List.map_cons] at ih ⊢
      rw [ih]

theorem namesIds_create_integration (l : List Deploy.Api) (apiId : String) :
    Deploy.namesIds (Deploy.create_integration l apiId).1 = Deploy.namesIds l := by
  have h := namesIds_updateFirst (fun a => a.apiId == apiId)
    (fun a => { a with integrations := a.integrations + 1 })
    (fun _ => rfl) (fun _ => rfl) l
  exact h

theorem namesIds_create_route (l : List Deploy.Api) (apiId rk t : String) :
    Deploy.namesIds (Deploy.create_route l apiId rk t) = Deploy.namesIds l := by
  have h := namesIds_updateFirst (fun a => a.apiId == apiId)
    (fun a => if rk ∈ a.routes then a else { a with routes := a.routes ++ [rk] })
    (fun a => by by_cases hmem : rk ∈ a.routes <;> simp [hmem])
    (fun a => by by_cases hmem : rk ∈ a.routes <;> simp [hmem]) l
  exact h

theorem namesIds_create_stage (l : List Deploy.Api) (apiId : String) :
    Deploy.namesIds (Deploy.create_stage l apiId) = Deploy.namesIds l := by
  have h := namesIds_updateFirst (fun a => a.apiId == apiId)
    (fun a => { a with hasStage := true }) (fun _ => rfl) (fun _ => rfl) l
  exact h

theorem namesIds_routes_foldl (keys : List String) (apiId t : String)
    (l : List Deploy.Api) :
    Deploy.namesIds (keys.foldl (fun acc rk => Deploy.create_route acc apiId rk t) l)
      = Deploy.namesIds l := by
  induction keys generalizing l with
  | nil => rfl
  | cons k ks ih => rw [List.foldl_cons, ih, namesIds_create_route]

theorem lookupIdByName_congr (n : String) (l₁ l₂ : List Deploy.Api)
    (h : Deploy.namesIds l₁ = Deploy.namesIds l₂) :
    Deploy.lookupIdByName l₁ n = Deploy.lookupIdByName l₂ n := by
  induction l₁ generalizing l₂ with
  | nil =>
    cases l₂ with
    | nil => rfl
    | cons b bs => simp [Deploy.namesIds] at h
  | cons a as ih =>
    cases l₂ with
    | nil => simp [Deploy.namesIds] at h
    | cons b bs =>
      simp only [Deploy.namesIds, List.map_cons, List.cons.injEq, Prod.mk.injEq] at h
      obtain ⟨⟨hn, hi⟩, ht⟩ := h
      simp only [Deploy.lookupIdByName, List.find?_cons, hn]
      cases hb : (b.name == n) with
      | true => simp [hi]
      | false => exact ih bs ht

theorem lookupIdByName_append_right (n : String) (l l' : List Deploy.Api)
    (h : l.find? (fun a => a.name == n) = none) :
    Deploy.lookupIdByName (l ++ l') n = Deploy.lookupIdByName l' n := by
  unfold Deploy.lookupIdByName
  rw [List.find?_append, h, Option.none_or]

theorem sumIntegrations_updateFirst_keep (p : Deploy.Api → Bool)
    (f : Deploy.Api → Deploy.Api) (h : ∀ a, (f a).integrations = a.integrations)
    (l : List Deploy.Api) :
    Deploy.sumIntegrations (Deploy.updateFirst p f l) = Deploy.sumIntegrations l := by
  induction l with
  | nil => rfl
  | cons a as ih =>
    unfold Deploy.updateFirst
    split
    · simp [Deploy.sumIntegrations, h a]
    · simp only [Deploy.sumIntegrations, List.map_cons, List.sum_cons] at ih ⊢
      rw [ih]

theorem sumIntegrations_updateFirst_inc (p : Deploy.Api → Bool) (l : List Deploy.Api)
    (h : ∃ a ∈ l, p a = true) :
    Deploy.sumIntegrations
        (Deploy.updateFirst p (fun a => { a with integrations := a.integrations + 1 }) l)
      = Deploy.sumIntegrations l + 1 := by
  induction l with
  | nil => simp at h
  | cons a as ih =>
    cases hp : p a with
    | true =>
      simp [Deploy.updateFirst, hp, Deploy.sumIntegrations]
      omega
    | false =>
      have hex : ∃ x ∈ as, p x = true := by
        obtain ⟨x, hx, hpx⟩ := h
        rcases List.mem_cons.mp hx with rfl | hx
        · rw [hp] at hpx
          exact absurd hpx (by simp)
        · exact ⟨x, hx, hpx⟩
      have hih := ih hex
      simp only [Deploy.sumIntegrations] at hih
      simp [Deploy.updateFirst, hp, Deploy.sumIntegrations]
      omega

theorem sumIntegrations_create_route (l : List Deploy.Api) (apiId rk t : String) :
    Deploy.sumIntegrations (Deploy.create_route l apiId rk t)
      = Deploy.sumIntegrations l := by
  have h := sumIntegrations_updateFirst_keep (fun a => a.apiId == apiId)
    (fun a => if rk ∈ a.routes then a else { a with routes := a.routes ++ [rk] })
    (fun a => by by_cases hmem : rk ∈ a.routes <;> simp [hmem]) l
  exact h

theorem sumIntegrations_create_stage (l : List Deploy.Api) (apiId : String) :
    Deploy.sumIntegrations (Deploy.create_stage l apiId) = Deploy.sumIntegrations l := by
  have h := sumIntegrations_updateFirst_keep (fun a => a.apiId == apiId)
    (fun a => { a with hasStage := true }) (fun _ => rfl) l
  exact h

theorem sumIntegrations_routes_foldl (keys : List String) (apiId t : String)
    (l : List Deploy.Api) :
    Deploy.sumIntegrations (keys.foldl (fun acc rk => Deploy.create_route acc apiId rk t) l)
      = Deploy.sumIntegrations l := by
  induction keys generalizing l with
  | nil => rfl
  | cons k ks ih => rw [List.foldl_cons, ih, sumIntegrations_create_route]

theorem sumIntegrations_append (l l' : List Deploy.Api) :
    Deploy.sumIntegrations (l ++ l')
      = Deploy.sumIntegrations l + Deploy.sumIntegrations l' := by
  simp [Deploy.sumIntegrations, List.sum_append]

theorem ensure_bucket_fst (name : String) (buckets : List String) :
    (Deploy.ensure_bucket name buckets).1 = name := by
  unfold Deploy.ensure_bucket
  split <;> rfl

theorem ensure_lambda_generic_fst (region account function_name : String)
    (functions : List String) :
    (Deploy.ensure_lambda_generic region account function_name functions).1
      = Deploy.base_arn region account function_name := by
  unfold Deploy.ensure_lambda_generic
  split <;> rfl

theorem ensure_inventory_table_arn (region account n : String)
    (ts : List (String × Deploy.TableInfo)) :
    (Deploy.ensure_inventory_table region account n ts).1
      = some (match List.lookup n ts with
              | some info => info.arn
              | none => Deploy.mkTableArn region account n) := by
  cases hl : List.lookup n ts with
  | some info =>
    simp [Deploy.ensure_inventory_table, Deploy.create_table,
      Deploy.inventory_table_request, hl]
  | none =>
    simp only [Deploy.ensure_inventory_table, Deploy.create_table,
      Deploy.inventory_table_request, hl]
    rw [lookup_append_of_none _ _ _ hl]
    simp [List.lookup]

theorem ensure_inventory_table_idem (region account n : String)
    (ts : List (String × Deploy.TableInfo)) :
    (Deploy.ensure_inventory_table region account n
        (Deploy.ensure_inventory_table region account n ts).2).1
      = (Deploy.ensure_inventory_table region account n ts).1 := by
  rw [ensure_inventory_table_arn, ensure_inventory_table_arn]
  cases hl : List.lookup n ts with
  | some info =>
    have hstate : (Deploy.ensure_inventory_table region account n ts).2 = ts := by
      simp [Deploy.ensure_inventory_table, Deploy.create_table,
        Deploy.inventory_table_request, hl]
    rw [hstate, hl]
  | none =>
    simp only [Deploy.ensure_inventory_table, Deploy.create_table,
      Deploy.inventory_table_request, hl]
    rw [lookup_append_of_none _ _ _ hl]
    simp [List.lookup]

theorem ensure_sns_topic_idem (region account n : String)
    (topics : List (String × String)) :
    (Deploy.ensure_sns_topic region account n
        (Deploy.ensure_sns_topic region account n topics).2).1
      = (Deploy.ensure_sns_topic region account n topics).1 := by
  unfold Deploy.ensure_sns_topic Deploy.create_topic
  cases hl : List.lookup n topics with
  | some arn => simp [hl]
  | none =>
    simp only [hl]
    rw [lookup_append_of_none _ _ _ hl]
    simp [List.lookup]

theorem ensure_http_api_endpoint (region api_name lambda_arn : String)
    (gs : Deploy.GwState) :
    (Deploy.ensure_http_api region api_name lambda_arn gs).1
      = Deploy.mkEndpoint region
          (match gs.apis.find? (fun a => a.name == api_name) with
           | some a => a.apiId
           | none => gs.freshApiId) := by
  cases hf : gs.apis.find? (fun a => a.name == api_name) <;>
    simp [Deploy.ensure_http_api, hf]

theorem ensure_http_api_namesIds (region api_name lambda_arn : String)
    (gs : Deploy.GwState) :
    Deploy.namesIds ((Deploy.ensure_http_api region api_name lambda_arn gs).2.1.apis)
      = match gs.apis.find? (fun a => a.name == api_name) with
        | some _ => Deploy.namesIds gs.apis
        | none => Deploy.namesIds gs.apis ++ [(api_name, gs.freshApiId)] := by
  cases hf : gs.apis.find? (fun a => a.name == api_name) with
  | some a =>
    simp only [Deploy.ensure_http_api, hf]
    rw [namesIds_create_stage, namesIds_routes_foldl, namesIds_create_integration]
  | none =>
    simp only [Deploy.ensure_http_api, hf]
    rw [namesIds_create_stage, namesIds_routes_foldl, namesIds_create_integration]
    simp [Deploy.namesIds]

theorem ensure_http_api_idem (region api_name lambda_arn : String) (gs : Deploy.GwState) :
    (Deploy.ensure_http_api region api_name lambda_arn
        (Deploy.ensure_http_api region api_name lambda_arn gs).2.1).1
      = (Deploy.ensure_http_api region api_name lambda_arn gs).1 := by
  cases hf : gs.apis.find? (fun a => a.name == api_name) with
  | some a =>
    have hids : ((Deploy.ensure_http_api region api_name lambda_arn gs).2.1.apis.find?
          (fun x => x.name == api_name)).map (fun x => x.apiId) = some a.apiId := by
      have h1 : Deploy.lookupIdByName
          ((Deploy.ensure_http_api region api_name lambda_arn gs).2.1.apis) api_name
          = Deploy.lookupIdByName gs.apis api_name := by
        refine lookupIdByName_congr api_name _ _ ?_
        rw [ensure_http_api_namesIds]
        simp [hf]
      have h2 : Deploy.lookupIdByName gs.apis api_name = some a.apiId := by
        unfold Deploy.lookupIdByName
        rw [hf]
        rfl
      unfold Deploy.lookupIdByName at h1 h2
      rw [h1, h2]
    obtain ⟨a2, hf2, ha2⟩ := Option.map_eq_some'.mp hids
    rw [ensure_http_api_endpoint, ensure_http_api_endpoint, hf, hf2]
    simp [ha2]
  | none =>
    have hids : ((Deploy.ensure_http_api region api_name lambda_arn gs).2.1.apis.find?
          (fun x => x.name == api_name)).map (fun x => x.apiId) = some gs.freshApiId := by
      have h1 : Deploy.lookupIdByName
          ((Deploy.ensure_http_api region api_name lambda_arn gs).2.1.apis) api_name
          = Deploy.lookupIdByName
              (gs.apis ++ [{ name := api_name, apiId := gs.freshApiId,
                             integrations := 0, routes := [], hasStage := false }]) api_name := by
        refine lookupIdByName_congr api_name _ _ ?_
        rw [ensure_http_api_namesIds]
        simp [hf, Deploy.namesIds]
      have h2 : Deploy.lookupIdByName
          (gs.apis ++ [{ name := api_name, apiId := gs.freshApiId,
                         integrations := 0, routes := [], hasStage := false }]) api_name
          = some gs.freshApiId := by
        rw [lookupIdByName_append_right api_name _ _ hf]
        simp [Deploy.lookupIdByName]
      unfold Deploy.lookupIdByName at h1 h2
      rw [h1, h2]
    obtain ⟨a2, hf2, ha2⟩ := Option.map_eq_some'.mp hids
    rw [ensure_http_api_endpoint, ensure_http_api_endpoint, hf, hf2]
    simp [ha2]

/-! ## Claims about the apply run -/

/-- Claim C3, as stated, is false at a concrete input: in a fresh run the
table step (log index 2) completes and returns the table ARN, yet when
the loader-function step (log index 4) begins, the store still holds no
table ARN — the identifier was not persisted before the next step. -/
theorem claim3_counterexample :
    ((Deploy.deploy_main Deploy.DeployStore.initial "20240101-abcd1234"
        Deploy.freshRemote).1.get? 2).map
        (fun sr => (sr.name, sr.identifier, sr.storeAtStart.tableArn))
      = some ("ensure_inventory_table",
              "arn:aws:dynamodb:us-east-1:123456789012:table/Inventory", none)
    ∧ ((Deploy.deploy_main Deploy.DeployStore.initial "20240101-abcd1234"
        Deploy.freshRemote).1.get? 4).map
        (fun sr => (sr.name, sr.storeAtStart.tableArn))
      = some ("ensure_lambda_generic LoadInventoryFunction", none) := by
  exact ⟨by decide, by decide⟩

/-- Claim C3 (amended): during an apply run only the suffix and the two
bucket names are written before provisioning; every step starts with the
four identifier keys (table ARN, API URL, topic ARN, web URL) unchanged
from the initial store, and the identifiers are persisted only in the
batch of writes after the last step (which does set them). -/
theorem claim3_thm (st0 : Deploy.DeployStore) (fresh : String) (r : Deploy.DeployRemote) :
    (∀ sr ∈ (Deploy.deploy_main st0 fresh r).1,
        sr.storeAtStart.tableArn = st0.tableArn
        ∧ sr.storeAtStart.apiUrl = st0.apiUrl
        ∧ sr.storeAtStart.snsArn = st0.snsArn
        ∧ sr.storeAtStart.webUrl = st0.webUrl)
    ∧ ((Deploy.deploy_main st0 fresh r).2.1.tableArn).isSome = true
    ∧ ((Deploy.deploy_main st0 fresh r).2.1.apiUrl).isSome = true
    ∧ ((Deploy.deploy_main st0 fresh r).2.1.snsArn).isSome = true := by
  refine ⟨?_, ?_, ?_, ?_⟩
  · intro sr hsr
    simp only [Deploy.deploy_main, List.mem_append, List.mem_cons, List.mem_map,
      List.not_mem_nil, or_false, Option.mem_toList, Option.mem_def] at hsr
    rcases hsr with ((h|h|h|h|h|h|h|h|h|h|h) | ⟨sa, hsa, h⟩) | (h|h) <;> subst h <;>
      exact ⟨rfl, rfl, rfl, rfl⟩
  · rw [show (Deploy.deploy_main st0 fresh r).2.1.tableArn
        = (Deploy.ensure_inventory_table r.region r.account Deploy.TABLE_NAME r.tables).1
      from rfl]
    rw [ensure_inventory_table_arn]
    rfl
  · rfl
  · rfl

/-- Witness for C3 (amended): the first step of a concrete fresh run. -/
theorem claim3_witness :
    Deploy.firstStepRec
        ∈ (Deploy.deploy_main Deploy.DeployStore.initial "20240101-abcd1234"
            Deploy.freshRemote).1
    ∧ (Deploy.firstStepRec.storeAtStart.tableArn = Deploy.DeployStore.initial.tableArn
       ∧ Deploy.firstStepRec.storeAtStart.apiUrl = Deploy.DeployStore.initial.apiUrl
       ∧ Deploy.firstStepRec.storeAtStart.snsArn = Deploy.DeployStore.initial.snsArn
       ∧ Deploy.firstStepRec.storeAtStart.webUrl = Deploy.DeployStore.initial.webUrl)
    ∧ ((Deploy.deploy_main Deploy.DeployStore.initial "20240101-abcd1234"
        Deploy.freshRemote).2.1.tableArn).isSome = true := by
  have h := claim3_thm Deploy.DeployStore.initial "20240101-abcd1234" Deploy.freshRemote
  exact ⟨by decide, h.1 Deploy.firstStepRec (by decide), h.2.1⟩

/-- Claim C4: a stored run suffix is reused unchanged on every apply run
(never regenerated while the record exists), and the derived bucket names
are exactly the concatenations of the fixed prefixes with the suffix. -/
theorem claim4_thm (st0 : Deploy.DeployStore) (fresh : String) (r : Deploy.DeployRemote)
    (s : String) (h : st0.suffix = some s) :
    (Deploy.deploy_main st0 fresh r).2.1.suffix = some s
    ∧ (Deploy.deploy_main st0 fresh r).2.1.uploadsBucket
        = some ("inventory-uploads-" ++ s)
    ∧ (Deploy.deploy_main st0 fresh r).2.1.webBucket
        = some ("inventory-web-" ++ s) := by
  refine ⟨?_, ?_, ?_⟩ <;> simp [Deploy.deploy_main, h]

/-- Witness for C4 at the suffix named in the specification. -/
theorem claim4_witness :
    Deploy.resumedStore.suffix = some "20240101-abcd1234"
    ∧ (Deploy.deploy_main Deploy.resumedStore "19990909-ffffffff"
        Deploy.freshRemote).2.1.suffix = some "20240101-abcd1234"
    ∧ (Deploy.deploy_main Deploy.resumedStore "19990909-ffffffff"
        Deploy.freshRemote).2.1.uploadsBucket
        = some "inventory-uploads-20240101-abcd1234"
    ∧ (Deploy.deploy_main Deploy.resumedStore "19990909-ffffffff"
        Deploy.freshRemote).2.1.webBucket
        = some "inventory-web-20240101-abcd1234" := by
  have h := claim4_thm Deploy.resumedStore "19990909-ffffffff" Deploy.freshRemote
    "20240101-abcd1234" rfl
  exact ⟨rfl, h.1, h.2.1, h.2.2⟩

/-- Claim C5: for every resource kind, running the reconcile step twice
in succession with no intervening remote change returns the identical
identifier both times (bucket name, table ARN, function ARN, gateway
endpoint, topic ARN). -/
theorem claim5_thm (region account : String) (bname : String) (buckets : List String)
    (tname : String) (tables : List (String × Deploy.TableInfo))
    (fname : String) (fns : List String)
    (api_name arm : String) (gs : Deploy.GwState)
    (topicName : String) (topics : List (String × String)) :
    (Deploy.ensure_bucket bname (Deploy.ensure_bucket bname buckets).2).1
        = (Deploy.ensure_bucket bname buckets).1
    ∧ (Deploy.ensure_inventory_table region account tname
          (Deploy.ensure_inventory_table region account tname tables).2).1
        = (Deploy.ensure_inventory_table region account tname tables).1
    ∧ (Deploy.ensure_lambda_generic region account fname
          (Deploy.ensure_lambda_generic region account fname fns).2.1).1
        = (Deploy.ensure_lambda_generic region account fname fns).1
    ∧ (Deploy.ensure_http_api region api_name arm
          (Deploy.ensure_http_api region api_name arm gs).2.1).1
        = (Deploy.ensure_http_api region api_name arm gs).1
    ∧ (Deploy.ensure_sns_topic region account topicName
          (Deploy.ensure_sns_topic region account topicName topics).2).1
        = (Deploy.ensure_sns_topic region account topicName topics).1 := by
  refine ⟨?_, ensure_inventory_table_idem region account tname tables, ?_,
    ensure_http_api_idem region api_name arm gs,
    ensure_sns_topic_idem region account topicName topics⟩
  · rw [ensure_bucket_fst, ensure_bucket_fst]
  · rw [ensure_lambda_generic_fst, ensure_lambda_generic_fst]

/-- Claim C6: on the already-exists conflict, the code update is issued
first, its completion is awaited, and only then is the configuration
update issued; the scan predicate certifies the ordering on the trace of
every run, and on a conflict the trace is exactly create-attempt, code
update, wait, configuration update. -/
theorem claim6_thm (region account function_name : String) (fns : List String) :
    Deploy.configAfterConfirmedCode false false
        (Deploy.ensure_lambda_generic region account function_name fns).2.2 = true
    ∧ (function_name ∈ fns →
        (Deploy.ensure_lambda_generic region account function_name fns).2.2
          = [Deploy.LambdaOp.createFunction function_name,
             Deploy.LambdaOp.updateFunctionCode function_name,
             Deploy.LambdaOp.waitFunctionUpdated function_name,
             Deploy.LambdaOp.updateFunctionConfiguration function_name]) := by
  by_cases h : function_name ∈ fns <;>
    simp [Deploy.ensure_lambda_generic, h, Deploy.configAfterConfirmedCode]

/-- Witness for C6 on a function that already exists remotely. -/
theorem claim6_witness :
    ("LoadInventoryFunction" ∈ ["LoadInventoryFunction"])
    ∧ (Deploy.ensure_lambda_generic "us-east-1" "123456789012" "LoadInventoryFunction"
        ["LoadInventoryFunction"]).2.2
        = [Deploy.LambdaOp.createFunction "LoadInventoryFunction",
           Deploy.LambdaOp.updateFunctionCode "LoadInventoryFunction",
           Deploy.LambdaOp.waitFunctionUpdated "LoadInventoryFunction",
           Deploy.LambdaOp.updateFunctionConfiguration "LoadInventoryFunction"]
    ∧ Deploy.configAfterConfirmedCode false false
        (Deploy.ensure_lambda_generic "us-east-1" "123456789012" "LoadInventoryFunction"
          ["LoadInventoryFunction"]).2.2 = true := by
  have h := claim6_thm "us-east-1" "123456789012" "LoadInventoryFunction"
    ["LoadInventoryFunction"]
  exact ⟨by decide, h.2 (by decide), h.1⟩

/-- Claim C7: the create-table request always carries the two-attribute
composite key (partition then sort) and stream enablement, and on the
already-exists conflict the operation silently returns the existing
table's ARN with the remote state — including its stream configuration —
unchanged. -/
theorem claim7_thm (region account tname : String)
    (tables : List (String × Deploy.TableInfo)) (info : Deploy.TableInfo) :
    (Deploy.inventory_table_request tname).keySchema.length = 2
    ∧ ((Deploy.inventory_table_request tname).keySchema.map (fun k => k.keyType))
        = ["HASH", "RANGE"]
    ∧ (Deploy.inventory_table_request tname).streamEnabled = true
    ∧ (List.lookup tname tables = some info →
        Deploy.ensure_inventory_table region account tname tables
          = (some info.arn, tables)) := by
  refine ⟨rfl, rfl, rfl, fun h => ?_⟩
  simp [Deploy.ensure_inventory_table, Deploy.create_table,
    Deploy.inventory_table_request, h]

/-- Witness for C7: a pre-existing table whose stream is disabled keeps
its configuration; the conflict is absorbed and the old ARN returned. -/
theorem claim7_witness :
    List.lookup "Inventory"
        [("Inventory",
          ({ arn := "arn:aws:dynamodb:us-east-1:123456789012:table/Inventory"
             keySchema := []
             streamEnabled := false
             streamViewType := ""
             streamArn := none } : Deploy.TableInfo))]
      = some ({ arn := "arn:aws:dynamodb:us-east-1:123456789012:table/Inventory"
                keySchema := []
                streamEnabled := false
                streamViewType := ""
                streamArn := none } : Deploy.TableInfo)
    ∧ Deploy.ensure_inventory_table "us-east-1" "123456789012" "Inventory"
        [("Inventory",
          ({ arn := "arn:aws:dynamodb:us-east-1:123456789012:table/Inventory"
             keySchema := []
             streamEnabled := false
             streamViewType := ""
             streamArn := none } : Deploy.TableInfo))]
      = (some "arn:aws:dynamodb:us-east-1:123456789012:table/Inventory",
         [("Inventory",
          ({ arn := "arn:aws:dynamodb:us-east-1:123456789012:table/Inventory"
             keySchema := []
             streamEnabled := false
             streamViewType := ""
             streamArn := none } : Deploy.TableInfo))]) := by
  have h := claim7_thm "us-east-1" "123456789012" "Inventory"
    [("Inventory",
      ({ arn := "arn:aws:dynamodb:us-east-1:123456789012:table/Inventory"
         keySchema := []
         streamEnabled := false
         streamViewType := ""
         streamArn := none } : Deploy.TableInfo))]
    ({ arn := "arn:aws:dynamodb:us-east-1:123456789012:table/Inventory"
       keySchema := []
       streamEnabled := false
       streamViewType := ""
       streamArn := none } : Deploy.TableInfo)
  exact ⟨by decide, h.2.2.2 (by decide)⟩

/-- Claim C10: every invocation of the gateway step issues exactly one
integration-creation call — unconditionally, for every prior state — and
the remote integration count always rises by exactly one, so repeated
runs accumulate integrations. -/
theorem claim10_thm (region api_name lambda_arn : String) (gs : Deploy.GwState) :
    ((Deploy.ensure_http_api region api_name lambda_arn gs).2.2).countP
        (fun op => Deploy.isCreateIntegration op) = 1
    ∧ Deploy.sumIntegrations
        (Deploy.ensure_http_api region api_name lambda_arn gs).2.1.apis
      = Deploy.sumIntegrations gs.apis + 1 := by
  cases hf : gs.apis.find? (fun a => a.name == api_name) with
  | some a =>
    constructor
    · simp [Deploy.ensure_http_api, hf, Deploy.routeKeys, Deploy.isCreateIntegration,
        List.countP_cons, List.countP_append]
    · have hmem : a ∈ gs.apis := List.mem_of_find?_eq_some hf
      have hinc := sumIntegrations_updateFirst_inc (fun x => x.apiId == a.apiId) gs.apis
        ⟨a, hmem, by simp⟩
      simp only [Deploy.ensure_http_api, hf]
      rw [sumIntegrations_create_stage, sumIntegrations_routes_foldl]
      exact hinc
  | none =>
    constructor
    · simp [Deploy.ensure_http_api, hf, Deploy.routeKeys, Deploy.isCreateIntegration,
        List.countP_cons, List.countP_append]
    · have hinc := sumIntegrations_updateFirst_inc (fun x => x.apiId == gs.freshApiId)
        (gs.apis ++ [{ name := api_name, apiId := gs.freshApiId,
                       integrations := 0, routes := [], hasStage := false }])
        ⟨_, List.mem_append_right _ (List.mem_singleton_self _), by simp⟩
      simp only [Deploy.ensure_http_api, hf]
      rw [sumIntegrations_create_stage, sumIntegrations_routes_foldl]
      simp only [Deploy.create_integration]
      rw [hinc, sumIntegrations_append]
      simp [Deploy.sumIntegrations]

/-- Witness for C1 (amended) on the empty remote. -/
theorem claim1_witness :
    Teardown.Event.call (Teardown.AwsCall.listEventSourceMappings "LoadInventoryFunction")
        ∈ (Teardown.teardown_main Teardown.Remote.emptyRemote Teardown.StateStore.emptyStore).1
    ∧ Teardown.touchesStoreResources
        (Teardown.AwsCall.listEventSourceMappings "LoadInventoryFunction") = false
    ∧ Teardown.Event.call (Teardown.AwsCall.deleteTable Teardown.TABLE_NAME)
        ∈ (Teardown.teardown_main Teardown.Remote.emptyRemote Teardown.StateStore.emptyStore).1 := by
  have h := claim1_thm Teardown.Remote.emptyRemote
  exact ⟨by decide, h.1 _ (by decide), h.2.2.2.2⟩
